import Mathlib

/-!
Shallow embedding of the resilient client-and-resource layer of the
VertexAI-MCP repository: the database retry executor and transaction
scope from `src/database/connect_db.py`, and the MCP transport session,
tool invoker and insurance domain adapter from
`src/mcp_client/mcp_client.py`.
-/

namespace ConnectDb

/-- Outcome of one attempt of the operation passed to `execute_with_retry`:
either the query returns a value, or it raises an exception that the code
classifies as transient (`asyncpg.PostgresConnectionError` /
`asyncpg.InterfaceError`) or as non-retryable (any other exception). -/
inductive AttemptOutcome (α : Type) where
  | success (v : α)
  | transient (msg : String)
  | fatal (msg : String)
deriving DecidableEq

/-- Whether an attempt outcome is one of the retryable exception classes. -/
def AttemptOutcome.isTransient {α : Type} : AttemptOutcome α → Bool
  | .transient _ => true
  | _ => false

/-- Result of `execute_with_retry`: the fetched value, a `DatabaseError`
raised after the loop ends carrying the last transient cause, or a
`DatabaseError` wrapping a non-retryable exception. -/
inductive RetryResult (α : Type) where
  | ok (v : α)
  | exhausted (lastCause : Option String)
  | fatalErr (msg : String)
deriving DecidableEq

/-- Observable trace of one run of `execute_with_retry`: the final result,
the list of `asyncio.sleep` durations performed between attempts, and the
number of attempts actually made. -/
structure RetryTrace (α : Type) where
  result : RetryResult α
  sleeps : List Nat
  attempts : Nat
deriving DecidableEq

/-- One iteration of the `for attempt in range(max_retries)` loop of
`execute_with_retry` (src/database/connect_db.py lines 273-292), with
`fuel` the number of loop iterations remaining, `last` the `last_error`
variable, and the sleep and attempt counters accumulated.  On a transient
failure the code sleeps `retry_delay * (attempt + 1)` when
`attempt < max_retries - 1`; a non-retryable exception is wrapped in
`DatabaseError` and raised at once; when the loop ends, a `DatabaseError`
wrapping `last_error` is raised. -/
def executeWithRetryAux {α : Type} (op : Nat → AttemptOutcome α)
    (max_retries retry_delay : Nat) (attempt : Nat) (fuel : Nat)
    (last : Option String) (sleeps : List Nat) (attempts : Nat) : RetryTrace α :=
  match fuel with
  | 0 => ⟨.exhausted last, sleeps, attempts⟩
  | fuel' + 1 =>
    match op attempt with
    | .success v => ⟨.ok v, sleeps, attempts + 1⟩
    | .transient e =>
      if attempt < max_retries - 1 then
        executeWithRetryAux op max_retries retry_delay (attempt + 1) fuel'
          (some e) (sleeps ++ [retry_delay * (attempt + 1)]) (attempts + 1)
      else
        executeWithRetryAux op max_retries retry_delay (attempt + 1) fuel'
          (some e) sleeps (attempts + 1)
    | .fatal e => ⟨.fatalErr e, sleeps, attempts + 1⟩

/-- `execute_with_retry` from src/database/connect_db.py: run `op` for up
to `max_retries` attempts, sleeping `retry_delay * (attempt + 1)` after a
transient failure that is not the last attempt. -/
def execute_with_retry {α : Type} (op : Nat → AttemptOutcome α)
    (max_retries : Nat) (retry_delay : Nat) : RetryTrace α :=
  executeWithRetryAux op max_retries retry_delay 0 max_retries none [] 0

theorem executeWithRetryAux_zero {α : Type} (op : Nat → AttemptOutcome α)
    (mr d a : Nat) (last : Option String) (sleeps : List Nat) (n : Nat) :
    executeWithRetryAux op mr d a 0 last sleeps n = ⟨.exhausted last, sleeps, n⟩ := rfl

theorem executeWithRetryAux_success {α : Type} {op : Nat → AttemptOutcome α}
    {a : Nat} {v : α} (mr d : Nat) (f : Nat) (last : Option String)
    (sleeps : List Nat) (n : Nat) (h : op a = .success v) :
    executeWithRetryAux op mr d a (f + 1) last sleeps n = ⟨.ok v, sleeps, n + 1⟩ := by
  simp [executeWithRetryAux, h]

theorem executeWithRetryAux_transient {α : Type} {op : Nat → AttemptOutcome α}
    {a : Nat} {e : String} (mr d : Nat) (f : Nat) (last : Option String)
    (sleeps : List Nat) (n : Nat) (h : op a = .transient e) :
    executeWithRetryAux op mr d a (f + 1) last sleeps n =
      if a < mr - 1 then
        executeWithRetryAux op mr d (a + 1) f (some e)
          (sleeps ++ [d * (a + 1)]) (n + 1)
      else
        executeWithRetryAux op mr d (a + 1) f (some e) sleeps (n + 1) := by
  simp [executeWithRetryAux, h]

theorem executeWithRetryAux_fatal {α : Type} {op : Nat → AttemptOutcome α}
    {a : Nat} {e : String} (mr d : Nat) (f : Nat) (last : Option String)
    (sleeps : List Nat) (n : Nat) (h : op a = .fatal e) :
    executeWithRetryAux op mr d a (f + 1) last sleeps n = ⟨.fatalErr e, sleeps, n + 1⟩ := by
  simp [executeWithRetryAux, h]

/-- If the attempts from `a` up to `a + k - 1` fail transiently and attempt
`a + k` succeeds (all within the loop bound), the loop returns the success
value, appends exactly the sleeps `d * (i + 1)` for `i` in `[a, a + k)`,
and makes `k + 1` further attempts. -/
theorem executeWithRetryAux_prefix_success {α : Type} (op : Nat → AttemptOutcome α)
    (mr d : Nat) (v : α) :
    ∀ (k a : Nat) (last : Option String) (sleeps : List Nat) (n : Nat),
      a + k < mr →
      (∀ j, j < k → (op (a + j)).isTransient = true) →
      op (a + k) = .success v →
      executeWithRetryAux op mr d a (mr - a) last sleeps n =
        ⟨.ok v, sleeps ++ (List.range' a k).map (fun i => d * (i + 1)), n + (k + 1)⟩ := by
  intro k
  induction k with
  | zero =>
    intro a last sleeps n hlt _ hsucc
    have h1 : mr - a = (mr - a - 1) + 1 := by omega
    rw [h1, executeWithRetryAux_success mr d _ last sleeps n (by simpa using hsucc)]
    simp
  | succ k ih =>
    intro a last sleeps n hlt htrans hsucc
    have h1 : mr - a = (mr - a - 1) + 1 := by omega
    have ht0 : (op a).isTransient = true := by simpa using htrans 0 (Nat.succ_pos k)
    obtain ⟨e, he⟩ : ∃ e, op a = .transient e := by
      cases hop : op a with
      | success v => rw [hop] at ht0; simp [AttemptOutcome.isTransient] at ht0
      | transient e => exact ⟨e, rfl⟩
      | fatal e => rw [hop] at ht0; simp [AttemptOutcome.isTransient] at ht0
    rw [h1, executeWithRetryAux_transient mr d _ last sleeps n he,
      if_pos (show a < mr - 1 by omega)]
    have h2 : mr - a - 1 = mr - (a + 1) := by omega
    rw [h2]
    have htrans' : ∀ j, j < k → (op (a + 1 + j)).isTransient = true := by
      intro j hj
      have : a + 1 + j = a + (j + 1) := by omega
      rw [this]
      exact htrans (j + 1) (by omega)
    have hsucc' : op (a + 1 + k) = .success v := by
      have : a + 1 + k = a + (k + 1) := by omega
      rw [this]; exact hsucc
    rw [ih (a + 1) (some e) (sleeps ++ [d * (a + 1)]) (n + 1) (by omega) htrans' hsucc']
    have hr : List.range' a (k + 1) = a :: List.range' (a + 1) k := List.range'_succ a k 1
    rw [RetryTrace.mk.injEq]
    refine ⟨rfl, ?_, by omega⟩
    rw [hr]
    simp

/-- If every attempt in the remaining loop iterations fails transiently,
the loop finishes and the final `DatabaseError` carries the error of the
last attempt, `mr - 1`. -/
theorem executeWithRetryAux_all_transient {α : Type} (op : Nat → AttemptOutcome α)
    (mr d : Nat) (errs : Nat → String) :
    ∀ (k a : Nat) (last : Option String) (sleeps : List Nat) (n : Nat),
      a + k = mr → 0 < k →
      (∀ j, a ≤ j → j < mr → op j = .transient (errs j)) →
      (executeWithRetryAux op mr d a (mr - a) last sleeps n).result =
        .exhausted (some (errs (mr - 1))) := by
  intro k
  induction k with
  | zero => intro a last sleeps n _ h0; omega
  | succ k ih =>
    intro a last sleeps n hk _ htrans
    have h1 : mr - a = (mr - a - 1) + 1 := by omega
    have he : op a = .transient (errs a) := htrans a (le_refl a) (by omega)
    rw [h1, executeWithRetryAux_transient mr d _ last sleeps n he]
    rcases Nat.eq_zero_or_pos k with hk0 | hkpos
    · subst hk0
      rw [if_neg (show ¬ a < mr - 1 by omega)]
      have h2 : mr - a - 1 = 0 := by omega
      rw [h2, executeWithRetryAux_zero]
      have : a = mr - 1 := by omega
      rw [this]
    · rw [if_pos (show a < mr - 1 by omega)]
      have h2 : mr - a - 1 = mr - (a + 1) := by omega
      rw [h2]
      exact ih (a + 1) (some (errs a)) (sleeps ++ [d * (a + 1)]) (n + 1)
        (by omega) hkpos (fun j hj hj' => htrans j (by omega) hj')

/-- If the loop returns a success value, some attempt within the loop
bound succeeded and every earlier attempt failed transiently. -/
theorem executeWithRetryAux_ok_inv {α : Type} (op : Nat → AttemptOutcome α)
    (mr d : Nat) (v : α) :
    ∀ (fuel a : Nat) (last : Option String) (sleeps : List Nat) (n : Nat),
      (executeWithRetryAux op mr d a fuel last sleeps n).result = .ok v →
      ∃ i, a ≤ i ∧ i < a + fuel ∧ op i = .success v ∧
        ∀ j, a ≤ j → j < i → (op j).isTransient = true := by
  intro fuel
  induction fuel with
  | zero =>
    intro a last sleeps n h
    rw [executeWithRetryAux_zero] at h
    exact absurd h (by simp)
  | succ fuel ih =>
    intro a last sleeps n h
    cases hop : op a with
    | success v' =>
      rw [executeWithRetryAux_success mr d fuel last sleeps n hop] at h
      simp only [RetryResult.ok.injEq] at h
      exact ⟨a, le_refl a, by omega, h ▸ hop, fun j hj hj' => by omega⟩
    | transient e =>
      rw [executeWithRetryAux_transient mr d fuel last sleeps n hop] at h
      have step : ∀ (sl : List Nat),
          (executeWithRetryAux op mr d (a + 1) fuel (some e) sl (n + 1)).result = .ok v →
          ∃ i, a ≤ i ∧ i < a + (fuel + 1) ∧ op i = .success v ∧
            ∀ j, a ≤ j → j < i → (op j).isTransient = true := by
        intro sl hsl
        obtain ⟨i, hi1, hi2, hi3, hi4⟩ := ih (a + 1) (some e) sl (n + 1) hsl
        refine ⟨i, by omega, by omega, hi3, fun j hj hj' => ?_⟩
        rcases Nat.eq_or_lt_of_le hj with hja | hja
        · rw [← hja, hop]; rfl
        · exact hi4 j hja hj'
      by_cases hc : a < mr - 1
      · rw [if_pos hc] at h
        exact step _ h
      · rw [if_neg hc] at h
        exact step _ h
    | fatal e =>
      rw [executeWithRetryAux_fatal mr d fuel last sleeps n hop] at h
      exact absurd h (by simp)

/-- Operation that fails transiently on every attempt. -/
def opAllTransient : Nat → AttemptOutcome Nat := fun _ => .transient "connection reset"

/-- Operation that fails transiently on attempts 0, 1, 2 and succeeds on
attempt 3. -/
def opTransientThenOk : Nat → AttemptOutcome Nat :=
  fun n => if n < 3 then .transient "connection reset" else .success 42

/-- Operation that fails transiently on attempt 0 and succeeds afterwards. -/
def opFailOnceThenOk : Nat → AttemptOutcome Nat :=
  fun n => if n = 0 then .transient "blip" else .success 7

/-- Operation that fails non-retryably on every attempt. -/
def opFatal : Nat → AttemptOutcome Nat := fun _ => .fatal "bad credentials"

/-- C1 counterexample: with base delay 1 and max_retries 4 against an
operation that fails transiently on every attempt, the sleep durations
performed by `execute_with_retry` are 1, 2, 3 — the linear sequence
`retry_delay * (attempt + 1)` — not the claimed geometric sequence
`baseDelay * 2 ^ attempt` = 1, 2, 4. -/
theorem C1_counterexample :
    (execute_with_retry opAllTransient 4 1).sleeps = [1, 2, 3] ∧
    (execute_with_retry opAllTransient 4 1).sleeps ≠ [1 * 2 ^ 0, 1 * 2 ^ 1, 1 * 2 ^ 2] := by
  decide

/-- C1 (amended): for every operation that fails transiently on its first
`k` attempts and then succeeds within the retry bound, the sleeps between
consecutive attempts are `retry_delay * (attempt + 1)` for attempts
0, ..., k-1 — a linearly increasing sequence retry_delay, 2*retry_delay,
3*retry_delay, ..., strictly increasing whenever retry_delay is positive. -/
theorem C1_backoff_linear {α : Type} (op : Nat → AttemptOutcome α)
    (mr d k : Nat) (v : α) (hk : k < mr)
    (htrans : ∀ j, j < k → (op j).isTransient = true)
    (hsucc : op k = .success v) :
    (execute_with_retry op mr d).sleeps = (List.range k).map (fun i => d * (i + 1)) ∧
    (0 < d → ((execute_with_retry op mr d).sleeps).Pairwise (· < ·)) := by
  have h := executeWithRetryAux_prefix_success op mr d v k 0 none [] 0 (by omega)
    (fun j hj => by simpa using htrans j hj) (by simpa using hsucc)
  rw [Nat.sub_zero] at h
  have hs : (execute_with_retry op mr d).sleeps =
      (List.range k).map (fun i => d * (i + 1)) := by
    unfold execute_with_retry
    rw [h, List.range_eq_range']
    simp
  refine ⟨hs, fun hd => ?_⟩
  rw [hs, List.pairwise_map]
  exact (List.pairwise_lt_range k).imp
    (fun hab => mul_lt_mul_of_pos_left (by omega) hd)

/-- Witness for C1_backoff_linear at a concrete input: three transient
failures with base delay 2 give sleeps 2, 4, 6. -/
theorem C1_backoff_linear_witness :
    (execute_with_retry opTransientThenOk 5 2).sleeps = [2, 4, 6] ∧
    ((execute_with_retry opTransientThenOk 5 2).sleeps).Pairwise (· < ·) := by
  have h := C1_backoff_linear opTransientThenOk 5 2 3 42 (by decide)
    (by decide) (by decide)
  exact ⟨h.1.trans (by decide), h.2 (by decide)⟩

/-- C3: `execute_with_retry` returns the success value `v` iff some attempt
within the first max_retries succeeds with `v` after only transient
failures before it; and when every one of the max_retries attempts fails
transiently it ends with the exhaustion `DatabaseError` wrapping the last
attempt's cause. -/
theorem C3_success_iff_and_exhaustion {α : Type} (op : Nat → AttemptOutcome α)
    (mr d : Nat) (errs : Nat → String) (v : α) (hmr : 1 ≤ mr) :
    ((execute_with_retry op mr d).result = .ok v ↔
      ∃ i, i < mr ∧ op i = .success v ∧ ∀ j, j < i → (op j).isTransient = true) ∧
    ((∀ j, j < mr → op j = .transient (errs j)) →
      (execute_with_retry op mr d).result = .exhausted (some (errs (mr - 1)))) := by
  constructor
  · constructor
    · intro h
      obtain ⟨i, _, hi2, hi3, hi4⟩ :=
        executeWithRetryAux_ok_inv op mr d v mr 0 none [] 0 h
      exact ⟨i, by omega, hi3, fun j hj => hi4 j (Nat.zero_le j) hj⟩
    · rintro ⟨i, hi, hsucc, htrans⟩
      have h := executeWithRetryAux_prefix_success op mr d v i 0 none [] 0 (by omega)
        (fun j hj => by simpa using htrans j hj) (by simpa using hsucc)
      rw [Nat.sub_zero] at h
      unfold execute_with_retry
      rw [h]
  · intro hall
    have h := executeWithRetryAux_all_transient op mr d errs mr 0 none [] 0
      (by omega) (by omega) (fun j _ hj => hall j hj)
    rw [Nat.sub_zero] at h
    exact h

/-- Witness for C3_success_iff_and_exhaustion: one transient failure then
success returns the success value 7. -/
theorem C3_success_iff_and_exhaustion_witness :
    (execute_with_retry opFailOnceThenOk 3 1).result = .ok 7 :=
  (C3_success_iff_and_exhaustion opFailOnceThenOk 3 1 (fun _ => "e") 7
    (by decide)).1.mpr ⟨1, by decide, by decide, by decide⟩

/-- C4: when the first attempt raises a non-retryable exception,
`execute_with_retry` makes exactly one attempt, performs no sleep, and
propagates the wrapped error at once. -/
theorem C4_fatal_single_attempt {α : Type} (op : Nat → AttemptOutcome α)
    (mr d : Nat) (e : String) (hmr : 1 ≤ mr) (hfatal : op 0 = .fatal e) :
    execute_with_retry op mr d = ⟨.fatalErr e, [], 1⟩ := by
  obtain ⟨m, rfl⟩ : ∃ m, mr = m + 1 := ⟨mr - 1, by omega⟩
  unfold execute_with_retry
  rw [executeWithRetryAux_fatal _ _ _ _ _ _ hfatal]

/-- Witness for C4_fatal_single_attempt at a concrete input. -/
theorem C4_fatal_single_attempt_witness :
    execute_with_retry opFatal 3 1 = ⟨.fatalErr "bad credentials", [], 1⟩ :=
  C4_fatal_single_attempt opFatal 3 1 "bad credentials" (by decide) rfl

/-- A Python exception as the transaction scope distinguishes them:
an `asyncpg.PostgresError` or any other exception. -/
inductive PyErr where
  | postgres (msg : String)
  | other (msg : String)
deriving DecidableEq

/-- What propagates out of `get_db_transaction` when the body fails:
a PostgresError is wrapped in `DatabaseError` (keeping the cause chained),
any other exception is re-raised unchanged. -/
inductive TxError where
  | databaseError (msg : String) (cause : PyErr)
  | reraised (e : PyErr)
deriving DecidableEq

/-- Observable events on the pool and the connection during one
`get_db_transaction` scope. -/
inductive DBEvent where
  | acquire
  | beginTx
  | commit
  | rollback
  | release
deriving DecidableEq

/-- The `except` clauses of `get_db_transaction`
(src/database/connect_db.py lines 222-227). -/
def classifyTx : PyErr → TxError
  | .postgres m => .databaseError ("Transaction failed: " ++ m) (.postgres m)
  | .other m => .reraised (.other m)

/-- `get_db_transaction` from src/database/connect_db.py (lines 199-233):
acquire a connection from the pool (which may itself fail), run the body
inside `conn.transaction()` — which commits when the body returns and
rolls back and re-raises when it raises — and in the `finally` block
release the connection whenever one was acquired. -/
def get_db_transaction {α : Type} (acquire : Except PyErr Unit) (fn : Except PyErr α) :
    Except TxError α × List DBEvent :=
  match acquire with
  | .error e => (.error (classifyTx e), [])
  | .ok _ =>
    match fn with
    | .ok v => (.ok v, [.acquire, .beginTx, .commit, .release])
    | .error e => (.error (classifyTx e), [.acquire, .beginTx, .rollback, .release])

/-- Number of occurrences of one event in a trace. -/
def countEvent (e : DBEvent) (l : List DBEvent) : Nat := l.count e

/-- Run a sequence of transactions and concatenate their traces. -/
def runTransactions {α : Type} (inputs : List (Except PyErr Unit × Except PyErr α)) :
    List DBEvent :=
  match inputs with
  | [] => []
  | p :: rest => (get_db_transaction p.1 p.2).2 ++ runTransactions rest

theorem get_db_transaction_release_eq_acquire {α : Type}
    (acquire : Except PyErr Unit) (fn : Except PyErr α) :
    countEvent .release (get_db_transaction acquire fn).2 =
      countEvent .acquire (get_db_transaction acquire fn).2 := by
  cases acquire with
  | error e => rfl
  | ok u => cases fn with
    | ok v => rfl
    | error e => rfl

/-- C2: the transaction scope releases its connection exactly once on every
exit path — when the body returns, the transaction commits and the
connection is released; when the body raises, the transaction rolls back,
the error propagates (PostgresErrors wrapped with their cause, others
re-raised), and the connection is still released — and over any sequence
of transactions the number of releases equals the number of acquires. -/
theorem C2_transaction_release_exactly_once {α : Type}
    (acquire : Except PyErr Unit) (fn : Except PyErr α)
    (inputs : List (Except PyErr Unit × Except PyErr α)) :
    countEvent .release (get_db_transaction acquire fn).2 =
      countEvent .acquire (get_db_transaction acquire fn).2 ∧
    (∀ v, fn = .ok v → acquire = .ok () →
      get_db_transaction acquire fn = (.ok v, [.acquire, .beginTx, .commit, .release])) ∧
    (∀ e, fn = .error e → acquire = .ok () →
      get_db_transaction acquire fn =
        (.error (classifyTx e), [.acquire, .beginTx, .rollback, .release])) ∧
    countEvent .release (runTransactions inputs) =
      countEvent .acquire (runTransactions inputs) := by
  refine ⟨get_db_transaction_release_eq_acquire acquire fn, ?_, ?_, ?_⟩
  · rintro v rfl rfl; rfl
  · rintro e rfl rfl; rfl
  · induction inputs with
    | nil => rfl
    | cons p rest ih =>
      simp only [runTransactions, countEvent, List.count_append]
      have h := get_db_transaction_release_eq_acquire p.1 p.2
      simp only [countEvent] at h ih
      omega

/-- Witness for C2_transaction_release_exactly_once: a successful body
commits and releases; release-count equals acquire-count over a mixed
sequence of a success, a body failure and an acquire failure. -/
theorem C2_transaction_release_exactly_once_witness :
    get_db_transaction (Except.ok ()) (Except.ok (42 : Nat)) =
      (.ok 42, [.acquire, .beginTx, .commit, .release]) ∧
    countEvent .release (runTransactions
      [(Except.ok (), Except.ok (42 : Nat)),
       (Except.ok (), Except.error (PyErr.postgres "deadlock")),
       (Except.error (PyErr.other "pool timeout"), Except.ok 0)]) =
    countEvent .acquire (runTransactions
      [(Except.ok (), Except.ok (42 : Nat)),
       (Except.ok (), Except.error (PyErr.postgres "deadlock")),
       (Except.error (PyErr.other "pool timeout"), Except.ok 0)]) := by
  have h := C2_transaction_release_exactly_once (Except.ok ()) (Except.ok (42 : Nat))
    [(Except.ok (), Except.ok (42 : Nat)),
     (Except.ok (), Except.error (PyErr.postgres "deadlock")),
     (Except.error (PyErr.other "pool timeout"), Except.ok 0)]
  exact ⟨h.2.1 42 rfl rfl, h.2.2.2⟩

end ConnectDb

namespace MCPClientModel

/-- The mutable state of an `MCPClient` instance
(src/mcp_client/mcp_client.py): the optional session and transport
handles (identified here by the attempt index that created them), the
discovered tool names, and the `_connected` flag. -/
structure MCPClient where
  session : Option Nat
  transport : Option Nat
  available_tools : List String
  connected : Bool
deriving DecidableEq

/-- The `is_connected` property: `self._connected and self.session is not
None`. -/
def MCPClient.is_connected (c : MCPClient) : Bool :=
  c.connected && c.session.isSome

/-- Observable connection-lifecycle events: opening a transport or a
session during attempt `i`, the backoff sleep, and the closes performed
by `disconnect`. -/
inductive ConnEvent where
  | openTransport (i : Nat)
  | openSession (i : Nat)
  | sleepBackoff (d : Nat)
  | closeSession
  | closeTransport
deriving DecidableEq

/-- Whether an event closes a transport or a session. -/
def ConnEvent.isClose : ConnEvent → Bool
  | .closeSession => true
  | .closeTransport => true
  | _ => false

/-- Number of close events in a trace. -/
def countCloseEvents (l : List ConnEvent) : Nat := l.countP ConnEvent.isClose

/-- Outcome of one `_attempt_connection`: the handshake and tool discovery
succeed, yielding the discovered tool names, or some step raises. -/
inductive ConnAttempt where
  | ok (tools : List String)
  | fail (msg : String)
deriving DecidableEq

/-- The `for attempt in range(settings.mcp.retry_attempts)` loop of
`MCPClient.connect` (src/mcp_client/mcp_client.py lines 86-99).  Each
iteration runs `_attempt_connection`, which assigns `self.transport` and
`self.session` before the handshake; on success it stores the tools and
sets `_connected`; on failure the partially-opened transport and session
stay assigned (nothing is closed), and the loop sleeps `2 ** attempt` and
retries, or raises `MCPConnectionError` on the last attempt. -/
def connectAux (outcomes : Nat → ConnAttempt) (ra : Nat) :
    MCPClient → Nat → Nat → List ConnEvent → Except String MCPClient × List ConnEvent :=
  fun c attempt fuel trace =>
  match fuel with
  | 0 => (.ok c, trace)
  | fuel' + 1 =>
    let c1 : MCPClient := { c with transport := some attempt, session := some attempt }
    let trace1 := trace ++ [.openTransport attempt, .openSession attempt]
    match outcomes attempt with
    | .ok tools => (.ok { c1 with available_tools := tools, connected := true }, trace1)
    | .fail msg =>
      if attempt < ra - 1 then
        connectAux outcomes ra c1 (attempt + 1) fuel'
          (trace1 ++ [.sleepBackoff (2 ^ attempt)])
      else
        (.error ("Failed to connect after " ++ toString ra ++ " attempts: " ++ msg),
          trace1)

/-- `MCPClient.connect`: return immediately when already connected,
otherwise run up to `retry_attempts` connection attempts. -/
def connect (c : MCPClient) (ra : Nat) (outcomes : Nat → ConnAttempt) :
    Except String MCPClient × List ConnEvent :=
  if c.is_connected then (.ok c, []) else connectAux outcomes ra c 0 ra []

/-- `MCPClient.disconnect` (lines 119-140): close the session and the
transport when present, clear both handles, reset `_connected` and the
tool list. -/
def disconnect (c : MCPClient) : MCPClient × List ConnEvent :=
  (⟨none, none, [], false⟩,
    (if c.session.isSome then [ConnEvent.closeSession] else []) ++
    (if c.transport.isSome then [ConnEvent.closeTransport] else []))

/-- One content item of a `CallToolResult`: a `TextContent` carrying its
text, or any other content item carrying its `str(...)` rendering. -/
inductive MCPContent where
  | text (s : String)
  | nonText (s : String)
deriving DecidableEq

/-- The structured response to one tool call. -/
structure CallToolResult where
  content : List MCPContent
deriving DecidableEq

/-- What `MCPClient.call_tool` produces: an extracted payload (`none`
models Python `None` for an empty-content response), an
`MCPConnectionError`, or an `MCPToolError`. -/
inductive ToolCallOutcome where
  | payload (p : Option String)
  | connError (msg : String)
  | toolError (msg : String)
deriving DecidableEq

/-- The payload-extraction branch of `call_tool` (lines 187-193):
`result.content[0].text` when the first item is a `TextContent`,
`str(result.content[0])` otherwise, and Python `None` when the content
list is empty. -/
def extractContent : List MCPContent → Option String
  | [] => none
  | .text t :: _ => some t
  | .nonText s :: _ => some s

/-- `MCPClient.call_tool` (src/mcp_client/mcp_client.py lines 155-197):
raise `MCPConnectionError` when not connected, raise `MCPToolError`
listing the available tools when the name is absent from the catalog,
otherwise send the request once (`remote` is the server's behaviour for
this single exchange) and extract the payload, wrapping a remote failure
in `MCPToolError`.  The returned triple is (outcome, client state after
the call, whether the transport was used). -/
def call_tool (c : MCPClient) (tool_name : String)
    (arguments : List (String × String)) (remote : Except String CallToolResult) :
    ToolCallOutcome × MCPClient × Bool :=
  if !c.is_connected then
    (.connError "Not connected to MCP server", c, false)
  else if !c.available_tools.contains tool_name then
    (.toolError ("Tool '" ++ tool_name ++ "' not available. Available tools: " ++
      String.intercalate ", " c.available_tools), c, false)
  else
    match remote with
    | .ok result => (.payload (extractContent result.content), c, true)
    | .error e => (.toolError ("Tool execution failed: " ++ e), c, true)

/-- Substring test on character lists: some suffix of the haystack starts
with the needle. -/
def containsSubAux (needle : List Char) : List Char → Bool
  | [] => needle.isEmpty
  | c :: rest => needle.isPrefixOf (c :: rest) || containsSubAux needle rest

/-- Python's `needle in hay` on strings. -/
def containsSub (hay needle : String) : Bool :=
  containsSubAux needle.toList hay.toList

/-- Python's `str.lower()`: character-wise lowercasing. -/
def lowerStr (s : String) : String := ⟨s.data.map Char.toLower⟩

/-- `InsuranceMCPClient.get_document_content`
(src/mcp_client/mcp_client.py lines 276-293): call the
`get_document_content` tool; return the payload only when it is a
non-empty string whose lowercasing contains neither `"not found"` nor
`"error"`; return `None` otherwise, and `None` whenever the call raises
(every exception is caught). -/
def get_document_content (c : MCPClient) (product_code : String)
    (remote : Except String CallToolResult) : Option String :=
  match (call_tool c "get_document_content" [("code", product_code)] remote).1 with
  | .payload (some r) =>
    if !r.isEmpty && !containsSub (lowerStr r) "not found" &&
        !containsSub (lowerStr r) "error" then
      some r
    else
      none
  | _ => none

theorem connectAux_zero (outcomes : Nat → ConnAttempt) (ra : Nat) (c : MCPClient)
    (a : Nat) (trace : List ConnEvent) :
    connectAux outcomes ra c a 0 trace = (.ok c, trace) := rfl

theorem connectAux_succ_ok {outcomes : Nat → ConnAttempt} {a : Nat}
    {tools : List String} (ra : Nat) (c : MCPClient) (f : Nat)
    (trace : List ConnEvent) (h : outcomes a = .ok tools) :
    connectAux outcomes ra c a (f + 1) trace =
      (.ok ⟨some a, some a, tools, true⟩,
        trace ++ [.openTransport a, .openSession a]) := by
  simp [connectAux, h]

theorem connectAux_succ_fail {outcomes : Nat → ConnAttempt} {a : Nat}
    {msg : String} (ra : Nat) (c : MCPClient) (f : Nat)
    (trace : List ConnEvent) (h : outcomes a = .fail msg) :
    connectAux outcomes ra c a (f + 1) trace =
      if a < ra - 1 then
        connectAux outcomes ra { c with transport := some a, session := some a }
          (a + 1) f ((trace ++ [.openTransport a, .openSession a]) ++
            [.sleepBackoff (2 ^ a)])
      else
        (.error ("Failed to connect after " ++ toString ra ++ " attempts: " ++ msg),
          trace ++ [.openTransport a, .openSession a]) := by
  simp [connectAux, h]

/-- The connect loop never emits a close event: failed attempts leave the
partially-opened transport and session unclosed. -/
theorem connectAux_no_close (outcomes : Nat → ConnAttempt) (ra : Nat) :
    ∀ (fuel : Nat) (c : MCPClient) (a : Nat) (trace : List ConnEvent),
      countCloseEvents (connectAux outcomes ra c a fuel trace).2 =
        countCloseEvents trace := by
  intro fuel
  induction fuel with
  | zero => intro c a trace; rfl
  | succ fuel ih =>
    intro c a trace
    cases hout : outcomes a with
    | ok tools =>
      rw [connectAux_succ_ok ra c fuel trace hout]
      simp [countCloseEvents, List.countP_append, ConnEvent.isClose]
    | fail msg =>
      rw [connectAux_succ_fail ra c fuel trace hout]
      by_cases hc : a < ra - 1
      · rw [if_pos hc, ih]
        simp [countCloseEvents, List.countP_append, ConnEvent.isClose]
      · rw [if_neg hc]
        simp [countCloseEvents, List.countP_append, ConnEvent.isClose]

/-- When every remaining attempt fails, the loop ends by raising
`MCPConnectionError` carrying the error of the last attempt. -/
theorem connectAux_all_fail (outcomes : Nat → ConnAttempt) (ra : Nat)
    (errs : Nat → String) :
    ∀ (k a : Nat) (c : MCPClient) (trace : List ConnEvent),
      a + k = ra → 0 < k →
      (∀ j, a ≤ j → j < ra → outcomes j = .fail (errs j)) →
      (connectAux outcomes ra c a (ra - a) trace).1 =
        .error ("Failed to connect after " ++ toString ra ++ " attempts: " ++
          errs (ra - 1)) := by
  intro k
  induction k with
  | zero => intro a c trace _ h0; omega
  | succ k ih =>
    intro a c trace hk _ hfail
    have h1 : ra - a = (ra - a - 1) + 1 := by omega
    have he : outcomes a = .fail (errs a) := hfail a (le_refl a) (by omega)
    rw [h1, connectAux_succ_fail ra c _ trace he]
    rcases Nat.eq_zero_or_pos k with hk0 | hkpos
    · subst hk0
      rw [if_neg (show ¬ a < ra - 1 by omega)]
      have : a = ra - 1 := by omega
      rw [this]
    · rw [if_pos (show a < ra - 1 by omega)]
      have h2 : ra - a - 1 = ra - (a + 1) := by omega
      rw [h2]
      exact ih (a + 1) _ _ (by omega) hkpos (fun j hj hj' => hfail j (by omega) hj')

/-- A client in the initial state, as built by `MCPClient.__init__`. -/
def freshClient : MCPClient := ⟨none, none, [], false⟩

/-- A connected client holding a two-tool catalog. -/
def connectedClient : MCPClient :=
  ⟨some 0, some 0, ["list_documents", "get_chat_history"], true⟩

/-- A connected client whose catalog includes the domain-adapter tools. -/
def adapterClient : MCPClient :=
  ⟨some 0, some 0, ["get_document_content", "list_documents"], true⟩

/-- Attempts that fail the first time and succeed the second time. -/
def outcomesFailThenOk : Nat → ConnAttempt :=
  fun n => if n = 0 then .fail "connection refused" else .ok ["list_documents"]

/-- Attempts that always fail. -/
def outcomesAllFail : Nat → ConnAttempt := fun _ => .fail "connection refused"

/-- C7 counterexample: on a fresh client with two attempts whose first
fails, the second attempt opens a new transport and session while the
trace contains no close event at all — the partially-opened resources of
the failed first attempt are not closed before the retry. -/
theorem C7_counterexample :
    (connect freshClient 2 outcomesFailThenOk).2 =
      [.openTransport 0, .openSession 0, .sleepBackoff 1,
       .openTransport 1, .openSession 1] ∧
    countCloseEvents (connect freshClient 2 outcomesFailThenOk).2 = 0 := by
  decide

/-- C7 (amended): on any step failure inside a connection attempt the
partially-opened transport and session are left assigned and unclosed
(the connect loop emits no close event), the loop retries with
exponential backoff, and after all `retry_attempts` attempts fail,
`connect` raises `MCPConnectionError` carrying the last failure. -/
theorem C7_partial_resources_not_closed (c : MCPClient) (ra : Nat)
    (outcomes : Nat → ConnAttempt) (errs : Nat → String)
    (hra : 1 ≤ ra) (hc : c.is_connected = false)
    (hfail : ∀ j, j < ra → outcomes j = .fail (errs j)) :
    countCloseEvents (connect c ra outcomes).2 = 0 ∧
    (connect c ra outcomes).1 =
      .error ("Failed to connect after " ++ toString ra ++ " attempts: " ++
        errs (ra - 1)) := by
  constructor
  · simp only [connect, hc, Bool.false_eq_true, if_false]
    have h := connectAux_no_close outcomes ra ra c 0 []
    simpa [countCloseEvents] using h
  · simp only [connect, hc, Bool.false_eq_true, if_false]
    have h := connectAux_all_fail outcomes ra errs ra 0 c [] (by omega) (by omega)
      (fun j _ hj => hfail j hj)
    rw [Nat.sub_zero] at h
    exact h

/-- Witness for C7_partial_resources_not_closed: two failing attempts on a
fresh client. -/
theorem C7_partial_resources_not_closed_witness :
    countCloseEvents (connect freshClient 2 outcomesAllFail).2 = 0 ∧
    (connect freshClient 2 outcomesAllFail).1 =
      .error "Failed to connect after 2 attempts: connection refused" := by
  have h := C7_partial_resources_not_closed freshClient 2 outcomesAllFail
    (fun _ => "connection refused") (by decide) (by decide) (fun j _ => rfl)
  exact ⟨h.1, h.2.trans (congrArg Except.error (by decide))⟩

/-- C5: while the client is not connected — in particular in the state
`disconnect` leaves behind — `call_tool` fails with the
`MCPConnectionError` "Not connected to MCP server" without touching the
transport and without changing the client state; nothing reconnects. -/
theorem C5_call_tool_not_connected (c : MCPClient) (n : String)
    (args : List (String × String)) (r : Except String CallToolResult)
    (h : c.is_connected = false) :
    call_tool c n args r = (.connError "Not connected to MCP server", c, false) ∧
    (disconnect c).1.is_connected = false := by
  constructor
  · simp [call_tool, h]
  · rfl

/-- Witness for C5_call_tool_not_connected on the fresh (disconnected)
client. -/
theorem C5_call_tool_not_connected_witness :
    call_tool freshClient "get_document_content" [] (.error "net") =
      (.connError "Not connected to MCP server", freshClient, false) ∧
    (disconnect freshClient).1.is_connected = false :=
  C5_call_tool_not_connected freshClient "get_document_content" [] (.error "net") rfl

/-- C6: on a connected client, calling a tool name absent from the
catalog fails with an `MCPToolError` whose message lists the available
tool names, without using the transport and without changing the client
state. -/
theorem C6_call_tool_unknown_tool (c : MCPClient) (n : String)
    (args : List (String × String)) (r : Except String CallToolResult)
    (hconn : c.is_connected = true) (habs : n ∉ c.available_tools) :
    call_tool c n args r =
      (.toolError ("Tool '" ++ n ++ "' not available. Available tools: " ++
        String.intercalate ", " c.available_tools), c, false) := by
  simp [call_tool, hconn, habs]

/-- Witness for C6_call_tool_unknown_tool on a connected client with a
two-tool catalog. -/
theorem C6_call_tool_unknown_tool_witness :
    call_tool connectedClient "premium_quote" [] (.ok ⟨[]⟩) =
      (.toolError
        "Tool 'premium_quote' not available. Available tools: list_documents, get_chat_history",
        connectedClient, false) := by
  have h := C6_call_tool_unknown_tool connectedClient "premium_quote" [] (.ok ⟨[]⟩)
    rfl (by decide)
  rw [h]
  decide

/-- C8: connect on an already-connected client returns immediately with
the state unchanged and performs no connection attempt (empty trace). -/
theorem C8_connect_idempotent (c : MCPClient) (ra : Nat)
    (outcomes : Nat → ConnAttempt) (h : c.is_connected = true) :
    connect c ra outcomes = (.ok c, []) := by
  simp [connect, h]

/-- Witness for C8_connect_idempotent on a connected client. -/
theorem C8_connect_idempotent_witness :
    connect connectedClient 3 outcomesAllFail = (.ok connectedClient, []) :=
  C8_connect_idempotent connectedClient 3 outcomesAllFail rfl

/-- C9: on a connected client with the tool in the catalog, a response
with empty content yields the valid empty payload (Python `None`), not an
error, and a response carrying a text item yields exactly that item's
text. -/
theorem C9_call_tool_payload (c : MCPClient) (n : String)
    (args : List (String × String)) (t : String) (rest : List MCPContent)
    (hconn : c.is_connected = true) (hmem : n ∈ c.available_tools) :
    (call_tool c n args (.ok ⟨[]⟩)).1 = .payload none ∧
    (call_tool c n args (.ok ⟨.text t :: rest⟩)).1 = .payload (some t) := by
  constructor <;> simp [call_tool, hconn, hmem, extractContent]

/-- Witness for C9_call_tool_payload on a connected client. -/
theorem C9_call_tool_payload_witness :
    (call_tool connectedClient "list_documents" [] (.ok ⟨[]⟩)).1 = .payload none ∧
    (call_tool connectedClient "list_documents" []
      (.ok ⟨[.text "docs"]⟩)).1 = .payload (some "docs") :=
  C9_call_tool_payload connectedClient "list_documents" [] "docs" [] rfl (by decide)

/-- C10: `get_document_content` never raises: it returns `none` whenever
the underlying tool call fails (connection error or tool error), whenever
the payload is Python-falsy, and whenever the payload's lowercasing
contains the substring "not found" or the substring "error" — even for a
successfully fetched document — and returns the payload otherwise. -/
theorem C10_get_document_content_total (c : MCPClient) (code : String)
    (remote : Except String CallToolResult) :
    (∀ msg, (call_tool c "get_document_content" [("code", code)] remote).1 =
        .connError msg → get_document_content c code remote = none) ∧
    (∀ msg, (call_tool c "get_document_content" [("code", code)] remote).1 =
        .toolError msg → get_document_content c code remote = none) ∧
    ((call_tool c "get_document_content" [("code", code)] remote).1 =
        .payload none → get_document_content c code remote = none) ∧
    (∀ r, (call_tool c "get_document_content" [("code", code)] remote).1 =
        .payload (some r) → containsSub (lowerStr r) "not found" = true →
        get_document_content c code remote = none) ∧
    (∀ r, (call_tool c "get_document_content" [("code", code)] remote).1 =
        .payload (some r) → containsSub (lowerStr r) "error" = true →
        get_document_content c code remote = none) ∧
    (∀ r, (call_tool c "get_document_content" [("code", code)] remote).1 =
        .payload (some r) → r.isEmpty = false →
        containsSub (lowerStr r) "not found" = false →
        containsSub (lowerStr r) "error" = false →
        get_document_content c code remote = some r) := by
  refine ⟨?_, ?_, ?_, ?_, ?_, ?_⟩
  · intro msg h; unfold get_document_content; rw [h]
  · intro msg h; unfold get_document_content; rw [h]
  · intro h; unfold get_document_content; rw [h]
  · intro r h hnf; unfold get_document_content; rw [h]; simp [hnf]
  · intro r h herr; unfold get_document_content; rw [h]; simp [herr]
  · intro r h hne hnf herr; unfold get_document_content; rw [h]; simp [hne, hnf, herr]

/-- Witness for C10_get_document_content_total: a fetched document whose
text contains "ERROR" is reported as absent, and a clean document text is
returned as-is. -/
theorem C10_get_document_content_total_witness :
    get_document_content adapterClient "PA01"
      (.ok ⟨[.text "Internal ERROR: upstream"]⟩) = none ∧
    get_document_content adapterClient "PA01"
      (.ok ⟨[.text "Policy covers X"]⟩) = some "Policy covers X" := by
  constructor
  · exact (C10_get_document_content_total adapterClient "PA01"
      (.ok ⟨[.text "Internal ERROR: upstream"]⟩)).2.2.2.2.1
      "Internal ERROR: upstream" (by decide) (by decide)
  · exact (C10_get_document_content_total adapterClient "PA01"
      (.ok ⟨[.text "Policy covers X"]⟩)).2.2.2.2.2
      "Policy covers X" (by decide) (by decide) (by decide) (by decide)

end MCPClientModel
